import Mathlib

/-!
Shallow embedding of src/parse_satcat_UCS_for_bounty.py.

The embedding models the Python source faithfully at the level the
specification talks about:
  - `format` (the value coercer, lines 131-171),
  - `parse_celestrak_row` (the fixed-width parser, lines 206-253),
  - `fingerprint_line` (MD5 hex digest of a line, lines 14-16) together
    with the per-row fingerprint input built at lines 179-181,
  - `fix_discrepencies` (the reconciliation pass, lines 101-128), with
    the pandas lookup semantics it actually has: the result of
    `df.set_index("norad_num")` at line 97 is discarded, so `satcat`
    keeps its default RangeIndex and `satcat.loc[key]` selects a row by
    position, and with the `random.randint(1, 101)` draw stream made an
    explicit argument.

Machine-level caveats of the model, stated once here:
  - Python float VALUES are carried as their literal string; no claim
    inspects a float result, only whether the float parse succeeds.
  - `format` can in the real pipeline only receive NaN, None, numbers,
    numpy scalars or strings; the `date` constructor case is mapped to
    itself (Python would raise AttributeError at `val.strip()`, but no
    call site can produce that input: Celestrak dates contain dashes and
    never survive the slash-only date patterns as date objects).
-/

namespace SatcatUCS

set_option maxRecDepth 40000

/-- Calendar date as produced by `datetime.strptime(...).date()`:
a year, month, day triple with no time component. -/
structure PyDate where
  y : Nat
  m : Nat
  d : Nat
deriving DecidableEq, Repr

/-- The dynamic value domain flowing through the script: Python None,
float NaN (what `pd.read_csv` puts in empty cells), plain ints and
floats, numpy scalar wrappers (unwrapped by `format` via `.item()`),
strings, and `datetime.date` results. Float values are carried as their
literal text, see the file header. -/
inductive PyVal where
  | none
  | nan
  | int (n : Int)
  | float (lit : String)
  | npInt (n : Int)
  | npFloat (lit : String)
  | str (s : String)
  | date (d : PyDate)
deriving DecidableEq, Repr

/-- Characters removed by Python `str.strip()` with no argument. -/
def isPySpace (c : Char) : Bool :=
  c == ' ' || c == '\t' || c == '\n' || c == '\r' || c == '\x0b' || c == '\x0c'

/-- ASCII digit test, the character class used by `int()`, `float()` and
the `strptime` patterns of the source. -/
def isDigitCh (c : Char) : Bool :=
  decide (48 ≤ c.toNat ∧ c.toNat ≤ 57)

/-- Python `str.strip()` on a character list. -/
def stripChars (l : List Char) : List Char :=
  ((l.dropWhile isPySpace).reverse.dropWhile isPySpace).reverse

/-- Python `str.strip()`. -/
def pyStrip (s : String) : String :=
  String.mk (stripChars s.data)

/-- Python `str.replace(",", "")`. -/
def removeCommas (s : String) : String :=
  String.mk (s.data.filter (fun c => c != ','))

/-- Optional leading sign of a numeric literal: returns the negativity
flag and the remaining characters. -/
def pySign : List Char → Bool × List Char
  | [] => (false, [])
  | c :: r => if c = '+' then (false, r) else if c = '-' then (true, r) else (false, c :: r)

/-- Python numeric literals allow single underscores between digits,
never doubled. -/
def noDoubleUS : List Char → Bool
  | [] => true
  | [_] => true
  | a :: b :: r => !(decide (a = '_') && decide (b = '_')) && noDoubleUS (b :: r)

/-- First character is a digit. -/
def headDigit (l : List Char) : Bool :=
  (l.head?.map isDigitCh).getD false

/-- Last character is a digit. -/
def lastDigit (l : List Char) : Bool :=
  (l.getLast?.map isDigitCh).getD false

/-- A digit group of a Python numeric literal: nonempty, digits and
underscores only, first and last characters digits, no doubled
underscore. -/
def duGroupOk (l : List Char) : Bool :=
  decide (l ≠ []) &&
  l.all (fun c => isDigitCh c || c == '_') &&
  headDigit l &&
  lastDigit l &&
  noDoubleUS l

/-- Numeric value of a digit group, underscores skipped. -/
def digitsVal (l : List Char) : Nat :=
  (l.filter (fun c => c != '_')).foldl (fun a c => 10 * a + (c.toNat - 48)) 0

/-- Numeric value of an all-digit character list. -/
def natOfDigits (l : List Char) : Nat :=
  l.foldl (fun a c => 10 * a + (c.toNat - 48)) 0

/-- Python `int(s)`: strips whitespace, one optional sign, then a digit
group; returns the signed value, or fails. -/
def pyIntParse (s : String) : Option Int :=
  let t := stripChars s.data
  let sg := pySign t
  if duGroupOk sg.2 then
    some (if sg.1 then -(Int.ofNat (digitsVal sg.2)) else Int.ofNat (digitsVal sg.2))
  else Option.none

/-- Split a character list at the first character satisfying `p`:
the part before it and, when found, the part after it. -/
def splitFirst (p : Char → Bool) : List Char → List Char × Option (List Char)
  | [] => ([], Option.none)
  | c :: r =>
    if p c then ([], some r)
    else (c :: (splitFirst p r).1, (splitFirst p r).2)

/-- Mantissa of a Python float literal: digit group, or digit groups
around a single dot with at least one of them present. -/
def mantissaOk (l : List Char) : Bool :=
  let q := splitFirst (fun c => c == '.') l
  q.2.elim (duGroupOk q.1) (fun fp =>
    (duGroupOk q.1 || decide (q.1 = [])) &&
    (duGroupOk fp || decide (fp = [])) &&
    !(decide (q.1 = []) && decide (fp = [])))

/-- Exponent part of a Python float literal: optional sign then a digit
group. -/
def expoOk (l : List Char) : Bool :=
  duGroupOk (pySign l).2

/-- Body of a Python float literal after sign stripping: the special
words inf, infinity, nan (case-insensitive), or a mantissa with an
optional exponent. -/
def floatBodyOk (u : List Char) : Bool :=
  let low := u.map Char.toLower
  if low = "inf".data ∨ low = "infinity".data ∨ low = "nan".data then true
  else
    let q := splitFirst (fun c => c == 'e' || c == 'E') u
    q.2.elim (mantissaOk q.1) (fun e => mantissaOk q.1 && expoOk e)

/-- Python `float(s)` success test: strips whitespace, one optional
sign, then a float body. -/
def pyFloatOk (s : String) : Bool :=
  floatBodyOk (pySign (stripChars s.data)).2

/-- Month field of the strptime patterns: the regex
`1[0-2]|0[1-9]|[1-9]`, that is one or two digits with value 1..12. -/
def monthCompOk (l : List Char) : Bool :=
  l.all isDigitCh &&
  (decide (l.length = 1) || decide (l.length = 2)) &&
  decide (1 ≤ natOfDigits l) && decide (natOfDigits l ≤ 12)

/-- Day field of the strptime patterns: the regex
`3[01]|[12][0-9]|0[1-9]|[1-9]`, that is one or two digits with value
1..31; calendar validity is checked separately. -/
def dayCompOk (l : List Char) : Bool :=
  l.all isDigitCh &&
  (decide (l.length = 1) || decide (l.length = 2)) &&
  decide (1 ≤ natOfDigits l) && decide (natOfDigits l ≤ 31)

/-- Two-digit year field of the `%y` directive. -/
def y2CompOk (l : List Char) : Bool :=
  l.all isDigitCh && decide (l.length = 2)

/-- Four-digit year field of the `%Y` directive. -/
def y4CompOk (l : List Char) : Bool :=
  l.all isDigitCh && decide (l.length = 4)

/-- Gregorian leap-year rule used by `datetime.date`. -/
def isLeap (y : Nat) : Bool :=
  y % 4 == 0 && (y % 100 != 0 || y % 400 == 0)

/-- Day count of a month, as enforced by the `datetime.date`
constructor. -/
def daysInMonth (y m : Nat) : Nat :=
  if m = 2 then (if isLeap y then 29 else 28)
  else if m = 4 ∨ m = 6 ∨ m = 9 ∨ m = 11 then 30
  else 31

/-- Validity check of the `datetime.date` constructor: year 1..9999,
month 1..12, day within the month. -/
def dateOk (y m d : Nat) : Bool :=
  decide (1 ≤ y) && decide (y ≤ 9999) &&
  decide (1 ≤ m) && decide (m ≤ 12) &&
  decide (1 ≤ d) && decide (d ≤ daysInMonth y m)

/-- Century pivot of the `%y` directive in CPython strptime: two-digit
years up to 68 land in the 2000s, the rest in the 1900s. -/
def resolveY2 (yy : Nat) : Nat :=
  if yy ≤ 68 then 2000 + yy else 1900 + yy

/-- Split a character list at every slash; mirrors Python `str.split`
on the literal separator used between the strptime directives. -/
def splitSlashes : List Char → List (List Char)
  | [] => [[]]
  | c :: r =>
    if c = '/' then [] :: splitSlashes r
    else
      match splitSlashes r with
      | g :: gs => (c :: g) :: gs
      | [] => [[c]]

/-- Slash-separated components of a candidate date string. -/
def comps (s : String) : List (List Char) :=
  splitSlashes s.data

/-- Line 154 of the source: `datetime.strptime(val, "%m/%d/%y").date()`
as a total function, fully matching the whole string or failing. -/
def strptimeMDY2 (s : String) : Option PyDate :=
  match comps s with
  | [a, b, c] =>
    if monthCompOk a && dayCompOk b && y2CompOk c then
      if dateOk (resolveY2 (natOfDigits c)) (natOfDigits a) (natOfDigits b) then
        some ⟨resolveY2 (natOfDigits c), natOfDigits a, natOfDigits b⟩
      else Option.none
    else Option.none
  | _ => Option.none

/-- Line 159 of the source: `datetime.strptime(val, "%m/%d/%Y").date()`. -/
def strptimeMDY4 (s : String) : Option PyDate :=
  match comps s with
  | [a, b, c] =>
    if monthCompOk a && dayCompOk b && y4CompOk c then
      if dateOk (natOfDigits c) (natOfDigits a) (natOfDigits b) then
        some ⟨natOfDigits c, natOfDigits a, natOfDigits b⟩
      else Option.none
    else Option.none
  | _ => Option.none

/-- Line 164 of the source: `datetime.strptime(val, "%Y/%m/%d").date()`. -/
def strptimeY4MD (s : String) : Option PyDate :=
  match comps s with
  | [a, b, c] =>
    if y4CompOk a && monthCompOk b && dayCompOk c then
      if dateOk (natOfDigits a) (natOfDigits b) (natOfDigits c) then
        some ⟨natOfDigits a, natOfDigits b, natOfDigits c⟩
      else Option.none
    else Option.none
  | _ => Option.none

/-- The try/except chain of lines 153-166: the three date patterns in
source order, first success wins. -/
def tryDates (s : String) : Option PyDate :=
  match strptimeMDY2 s with
  | some d => some d
  | Option.none =>
    match strptimeMDY4 s with
    | some d => some d
    | Option.none => strptimeY4MD s

/-- The value coercer, `format` at lines 131-171 of the source:
NaN/None to None; numpy scalars unwrapped; native numbers passed
through; strings stripped, then integer parse with commas removed, then
float parse with commas removed, then the three date patterns on the
stripped string, then the empty/`"N/A"` sentinel, else the stripped
string. -/
def format : PyVal → PyVal
  | .nan => .none
  | .none => .none
  | .npInt n => .int n
  | .npFloat lit => .float lit
  | .int n => .int n
  | .float lit => .float lit
  | .date d => .date d
  | .str s0 =>
    let s := pyStrip s0
    let nc := removeCommas s
    match pyIntParse nc with
    | some n => .int n
    | Option.none =>
      if pyFloatOk nc then .float (pyStrip nc)
      else
        match tryDates s with
        | some d => .date d
        | Option.none =>
          if s = "" ∨ s = "N/A" then .none else .str s

example : format (PyVal.str "N/A") = PyVal.none := by decide
example : format (PyVal.str "") = PyVal.none := by decide
example : format (PyVal.str "  42  ") = PyVal.int 42 := by decide
example : format (PyVal.str "1,234") = PyVal.int 1234 := by decide
example : format (PyVal.str "-17") = PyVal.int (-17) := by decide
example : format (PyVal.str "3.5") = PyVal.float "3.5" := by decide
example : format (PyVal.str "12/31/99") = PyVal.date ⟨1999, 12, 31⟩ := by decide
example : format (PyVal.str "01/01/50") = PyVal.date ⟨2050, 1, 1⟩ := by decide
example : format (PyVal.str "01/02/2003") = PyVal.date ⟨2003, 1, 2⟩ := by decide
example : format (PyVal.str "2003/01/02") = PyVal.date ⟨2003, 1, 2⟩ := by decide
example : format (PyVal.str "02/30/99") = PyVal.str "02/30/99" := by decide
example : format (PyVal.str "02/29/00") = PyVal.date ⟨2000, 2, 29⟩ := by decide
example : format (PyVal.str "02/29/01") = PyVal.str "02/29/01" := by decide
example : format (PyVal.str "hello") = PyVal.str "hello" := by decide
example : format PyVal.nan = PyVal.none := by decide
example : format (PyVal.npInt 25544) = PyVal.int 25544 := by decide

/-- Zero-padded two-digit rendering, as in `str(datetime.date(...))`. -/
def pad2 (n : Nat) : String :=
  if n < 10 then "0" ++ toString n else toString n

/-- Zero-padded four-digit year rendering of `str(datetime.date(...))`. -/
def pad4 (n : Nat) : String :=
  if n < 10 then "000" ++ toString n
  else if n < 100 then "00" ++ toString n
  else if n < 1000 then "0" ++ toString n
  else toString n

/-- Python `str(e)` on the modelled value domain: `str(None)` is the
text None, `str(float("nan"))` is nan, dates render ISO with zero
padding; float literals render as their carrier text (see the file
header). -/
def pyStr : PyVal → String
  | .none => "None"
  | .nan => "nan"
  | .int n => toString n
  | .float lit => lit
  | .npInt n => toString n
  | .npFloat lit => lit
  | .str s => s
  | .date d => pad4 d.y ++ "-" ++ pad2 d.m ++ "-" ++ pad2 d.d

/-! MD5, the content hash behind `fingerprint_line` (line 16 of the
source: `md5(line.encode("utf-8")).hexdigest()`). Implemented over Nat
with explicit reduction modulo 2^32. -/

/-- UTF-8 encoding of one character, as `str.encode("utf-8")` produces. -/
def utf8Char (c : Char) : List Nat :=
  let n := c.toNat
  if n < 128 then [n]
  else if n < 2048 then [192 ||| (n >>> 6), 128 ||| (n &&& 63)]
  else if n < 65536 then
    [224 ||| (n >>> 12), 128 ||| ((n >>> 6) &&& 63), 128 ||| (n &&& 63)]
  else
    [240 ||| (n >>> 18), 128 ||| ((n >>> 12) &&& 63),
     128 ||| ((n >>> 6) &&& 63), 128 ||| (n &&& 63)]

/-- UTF-8 bytes of a string. -/
def utf8Bytes (s : String) : List Nat :=
  (s.data.map utf8Char).flatten

/-- Little-endian split of a value into eight bytes, for the MD5 length
block. -/
def le8 (n : Nat) : List Nat :=
  [n &&& 255, (n >>> 8) &&& 255, (n >>> 16) &&& 255, (n >>> 24) &&& 255,
   (n >>> 32) &&& 255, (n >>> 40) &&& 255, (n >>> 48) &&& 255, (n >>> 56) &&& 255]

/-- Little-endian split of a 32-bit word into four bytes. -/
def le4 (n : Nat) : List Nat :=
  [n &&& 255, (n >>> 8) &&& 255, (n >>> 16) &&& 255, (n >>> 24) &&& 255]

/-- MD5 padding: a 0x80 byte, zeros to 56 mod 64, then the bit length
as eight little-endian bytes. -/
def md5Pad (msg : List Nat) : List Nat :=
  let z := (120 - ((msg.length + 1) % 64)) % 64
  msg ++ 128 :: List.replicate z 0 ++ le8 (msg.length * 8)

/-- Split a byte list into 64-byte blocks; the fuel argument, set to
the list length, keeps the recursion structural. -/
def chunks64Aux : Nat → List Nat → List (List Nat)
  | 0, _ => []
  | _, [] => []
  | Nat.succ f, x :: xs => ((x :: xs).take 64) :: chunks64Aux f ((x :: xs).drop 64)

/-- Split a byte list into 64-byte blocks. -/
def chunks64 (l : List Nat) : List (List Nat) :=
  chunks64Aux l.length l

/-- The 64 per-round shift amounts of MD5. -/
def md5S : List Nat :=
  [7, 12, 17, 22, 7, 12, 17, 22, 7, 12, 17, 22, 7, 12, 17, 22,
   5, 9, 14, 20, 5, 9, 14, 20, 5, 9, 14, 20, 5, 9, 14, 20,
   4, 11, 16, 23, 4, 11, 16, 23, 4, 11, 16, 23, 4, 11, 16, 23,
   6, 10, 15, 21, 6, 10, 15, 21, 6, 10, 15, 21, 6, 10, 15, 21]

/-- The 64 sine-derived additive constants of MD5. -/
def md5K : List Nat :=
  [0xd76aa478, 0xe8c7b756, 0x242070db, 0xc1bdceee,
   0xf57c0faf, 0x4787c62a, 0xa8304613, 0xfd469501,
   0x698098d8, 0x8b44f7af, 0xffff5bb1, 0x895cd7be,
   0x6b901122, 0xfd987193, 0xa679438e, 0x49b40821,
   0xf61e2562, 0xc040b340, 0x265e5a51, 0xe9b6c7aa,
   0xd62f105d, 0x02441453, 0xd8a1e681, 0xe7d3fbc8,
   0x21e1cde6, 0xc33707d6, 0xf4d50d87, 0x455a14ed,
   0xa9e3e905, 0xfcefa3f8, 0x676f02d9, 0x8d2a4c8a,
   0xfffa3942, 0x8771f681, 0x6d9d6122, 0xfde5380c,
   0xa4beea44, 0x4bdecfa9, 0xf6bb4b60, 0xbebfbc70,
   0x289b7ec6, 0xeaa127fa, 0xd4ef3085, 0x04881d05,
   0xd9d4d039, 0xe6db99e5, 0x1fa27cf8, 0xc4ac5665,
   0xf4292244, 0x432aff97, 0xab9423a7, 0xfc93a039,
   0x655b59c3, 0x8f0ccc92, 0xffeff47d, 0x85845dd1,
   0x6fa87e4f, 0xfe2ce6e0, 0xa3014314, 0x4e0811a1,
   0xf7537e82, 0xbd3af235, 0x2ad7d2bb, 0xeb86d391]

/-- Rotate a 32-bit word left by `n` bits. -/
def leftrot (x n : Nat) : Nat :=
  (((x <<< n) % 4294967296) ||| (x >>> (32 - n)))

/-- Little-endian 32-bit word `j` of a 64-byte block. -/
def wordAt (blk : List Nat) (j : Nat) : Nat :=
  blk.getD (4 * j) 0 + 256 * blk.getD (4 * j + 1) 0 +
  65536 * blk.getD (4 * j + 2) 0 + 16777216 * blk.getD (4 * j + 3) 0

/-- One MD5 round applied to the running state. -/
def md5Round (blk : List Nat) (st : Nat × Nat × Nat × Nat) (i : Nat) :
    Nat × Nat × Nat × Nat :=
  let a := st.1
  let b := st.2.1
  let c := st.2.2.1
  let d := st.2.2.2
  let fg : Nat × Nat :=
    if i < 16 then ((b &&& c) ||| ((b ^^^ 4294967295) &&& d), i)
    else if i < 32 then ((d &&& b) ||| ((d ^^^ 4294967295) &&& c), (5 * i + 1) % 16)
    else if i < 48 then (b ^^^ c ^^^ d, (3 * i + 5) % 16)
    else (c ^^^ (b ||| (d ^^^ 4294967295)), (7 * i) % 16)
  let tmp := (fg.1 + a + md5K.getD i 0 + wordAt blk fg.2) % 4294967296
  (d, (b + leftrot tmp (md5S.getD i 0)) % 4294967296, b, c)

/-- One 64-byte block folded into the MD5 state. -/
def md5Block (st : Nat × Nat × Nat × Nat) (blk : List Nat) :
    Nat × Nat × Nat × Nat :=
  let r := (List.range 64).foldl (md5Round blk) st
  ((st.1 + r.1) % 4294967296, (st.2.1 + r.2.1) % 4294967296,
   (st.2.2.1 + r.2.2.1) % 4294967296, (st.2.2.2 + r.2.2.2) % 4294967296)

/-- The sixteen digest bytes of the MD5 of a string. -/
def md5Digest (s : String) : List Nat :=
  let r := (chunks64 (md5Pad (utf8Bytes s))).foldl md5Block
    (1732584193, 4023233417, 2562383102, 271733878)
  le4 r.1 ++ le4 r.2.1 ++ le4 r.2.2.1 ++ le4 r.2.2.2

/-- Lower-case hex digit of a value below 16. -/
def hexChar (n : Nat) : Char :=
  if n < 10 then Char.ofNat (48 + n) else Char.ofNat (87 + n)

/-- Two lower-case hex digits of a byte. -/
def byteHex (b : Nat) : List Char :=
  [hexChar ((b / 16) % 16), hexChar (b % 16)]

/-- Lines 14-16 of the source: `fingerprint_line` returns the MD5 hex
digest of the UTF-8 bytes of the line. -/
def fingerprint_line (line : String) : String :=
  String.mk ((md5Digest line).map byteHex).flatten

/-- Lines 179-181 of the source: the per-row fingerprint input is the
concatenation of `str(e)` over the row fields in column order, hashed
by `fingerprint_line`. -/
def fingerprintRow (row : List PyVal) : String :=
  fingerprint_line (String.join (row.map pyStr))

example : fingerprint_line "" = "d41d8cd98f00b204e9800998ecf8427e" := by decide
example : fingerprint_line "abc" = "900150983cd24fb0d6963f7d28e17f72" := by decide

/-! The fixed-width Celestrak line parser, `parse_celestrak_row` at
lines 206-253 of the source. -/

/-- Python slicing `line[a:b]` for `0 <= a <= b`: clamped, never
failing. -/
def pySlice (s : String) (a b : Nat) : String :=
  String.mk ((s.data.drop a).take (b - a))

/-- The 16-field raw tuple built by `parse_celestrak_row`, in source
order; the two flag fields are the ints the source computes, every
other field the sliced raw string. -/
structure CelestrakTuple where
  intl_desg : String
  norad_number : String
  multiple_name_flag : Nat
  payload_flag : Nat
  ops_status_code : String
  name : String
  source : String
  launch_date : String
  launch_site : String
  decay_date : String
  orbit_period_minutes : String
  inclination_deg : String
  apogee : String
  perigee : String
  radar_crosssec : String
  orbit_status_code : String
deriving DecidableEq, Repr

/-- Lines 206-253 of the source. The fields at offsets 19, 20 and 21
are read with single-character INDEXING (`line[19]`, `line[20]`,
`line[21]`), not slicing; indexing a too-short line raises IndexError,
modelled as `none`. When the index is in range it yields a one-character
string, which is never falsy, so the `else 0` branches of the flag
tests are preserved here exactly as the dead code they are in the
source. All remaining fields use half-open slices and cannot fail. -/
def parse_celestrak_row (line : String) : Option CelestrakTuple :=
  match line.data.get? 19 with
  | Option.none => Option.none
  | some c19 =>
    match line.data.get? 20 with
    | Option.none => Option.none
    | some c20 =>
      match line.data.get? 21 with
      | Option.none => Option.none
      | some c21 =>
        some {
          intl_desg := pySlice line 0 11
          norad_number := pySlice line 13 18
          multiple_name_flag := if (String.mk [c19]).isEmpty then 0 else 1
          payload_flag := if (String.mk [c20]).isEmpty then 0 else 1
          ops_status_code := String.mk [c21]
          name := pySlice line 23 47
          source := pySlice line 49 54
          launch_date := pySlice line 56 66
          launch_site := pySlice line 69 73
          decay_date := pySlice line 75 85
          orbit_period_minutes := pySlice line 87 94
          inclination_deg := pySlice line 96 101
          apogee := pySlice line 103 109
          perigee := pySlice line 111 117
          radar_crosssec := pySlice line 119 127
          orbit_status_code := pySlice line 129 132 }

/-! The reconciliation pass, `fix_discrepencies` at lines 101-128 of
the source, over the two loaded tables. -/

/-- One Registry row: the 35 named UCS columns of lines 25-61 of the
source, holding the raw cell values (the `satdb.applymap(format)`
result at line 24 is discarded, so cells stay as loaded). -/
structure SatdbRow where
  name : PyVal
  country_registered : PyVal
  country_owner : PyVal
  owner_operator : PyVal
  users : PyVal
  purpose : PyVal
  purpose_detailed : PyVal
  orbit_class : PyVal
  orbit_type : PyVal
  GEO_longitude : PyVal
  perigee_km : PyVal
  apogee_km : PyVal
  eccentricity : PyVal
  inclination_degrees : PyVal
  period_minutes : PyVal
  launch_mass_kg : PyVal
  dry_mass_kg : PyVal
  power_watts : PyVal
  launch_date : PyVal
  expected_lifetime_years : PyVal
  contractor : PyVal
  contractor_country : PyVal
  launch_site : PyVal
  launch_vehicle : PyVal
  international_designator : PyVal
  norad_number : PyVal
  comments : PyVal
  detailed_comments : PyVal
  source_1 : PyVal
  source_2 : PyVal
  source_3 : PyVal
  source_4 : PyVal
  source_5 : PyVal
  source_6 : PyVal
  source_7 : PyVal
deriving DecidableEq, Repr

/-- One TrackingCatalog row: the 16 named columns of lines 78-95 of the
source, holding coerced values (`format` ran per cell at line 73). -/
structure SatcatRow where
  intl_desg : PyVal
  norad_num : PyVal
  multiple_name_flag : PyVal
  payload_flag : PyVal
  ops_status_code : PyVal
  name : PyVal
  source : PyVal
  launch_date : PyVal
  launch_site : PyVal
  decay_date : PyVal
  orbit_period_minutes : PyVal
  inclination_deg : PyVal
  apogee : PyVal
  perigee : PyVal
  radar_crosssec : PyVal
  orbit_status_code : PyVal
deriving DecidableEq, Repr

/-- Line 107 of the source, `satcat.loc[norad_number]`, with the index
the dataframe actually has: `df.set_index("norad_num")` at line 97
returns a new frame that is thrown away, so `satcat` keeps its default
RangeIndex 0..n-1 and `.loc` matches the key against ROW POSITIONS.
An integer key inside the range returns the row at that position; any
other key (out of range, None, float, string, date) raises KeyError,
landing in the `except` branch. -/
def satcatLoc (satcat : List SatcatRow) (key : PyVal) : Option SatcatRow :=
  match key with
  | .int n =>
    if h : 0 ≤ n ∧ n.toNat < satcat.length then some (satcat.get ⟨n.toNat, h.2⟩)
    else Option.none
  | _ => Option.none

/-- Lines 108-115 of the source: the eight field overrides applied on a
successful lookup. -/
def applyOverride (row : SatdbRow) (srow : SatcatRow) : SatdbRow :=
  { row with
    name := srow.name
    perigee_km := srow.perigee
    apogee_km := srow.apogee
    inclination_degrees := srow.inclination_deg
    period_minutes := srow.orbit_period_minutes
    launch_date := srow.launch_date
    launch_site := srow.launch_site
    international_designator := srow.intl_desg }

/-- Recursion behind `fix_discrepencies`: walks the Registry rows in
order, keeping the count `k` of matches so far; `draws k` is the value
`random.randint(1, 101)` returns at the k-th successful match (lines
117-120: the draw happens only inside the matched branch, and a draw
below 3 replaces the name with the placeholder). A failed lookup keeps
the row, appends the offending key to the diagnostics (the
`log.warning` of lines 123-126 names exactly that key), and continues. -/
def fixAux (satcat : List SatcatRow) (draws : Nat → Nat) :
    List SatdbRow → Nat → List SatdbRow × List PyVal
  | [], _ => ([], [])
  | row :: rest, k =>
    let key := format row.norad_number
    match satcatLoc satcat key with
    | some srow =>
      let row1 := applyOverride row srow
      let row2 := if draws k < 3 then { row1 with name := PyVal.str "BLAH BLAH BLAH" } else row1
      let q := fixAux satcat draws rest (k + 1)
      (row2 :: q.1, q.2)
    | Option.none =>
      let q := fixAux satcat draws rest k
      (row :: q.1, key :: q.2)

/-- Lines 101-128 of the source: `fix_discrepencies(satdb, satcat)`
returns the mutated Registry rows together with the emitted JoinMiss
diagnostics; the RNG draw stream is the explicit last argument. -/
def fix_discrepencies (satdb : List SatdbRow) (satcat : List SatcatRow)
    (draws : Nat → Nat) : List SatdbRow × List PyVal :=
  fixAux satcat draws satdb 0

/-! Concrete fixture rows used by the reconciliation theorems. -/

/-- A Registry row with distinctive field values. -/
def regBase : SatdbRow :=
  { name := .str "OLD NAME"
    country_registered := .str "USA"
    country_owner := .str "USA"
    owner_operator := .str "OwnerCo"
    users := .str "Civil"
    purpose := .str "Communications"
    purpose_detailed := .str "Comms detail"
    orbit_class := .str "LEO"
    orbit_type := .str "Sun-sync"
    GEO_longitude := .nan
    perigee_km := .str "500"
    apogee_km := .str "510"
    eccentricity := .str "0.01"
    inclination_degrees := .str "51.6"
    period_minutes := .str "92.5"
    launch_mass_kg := .str "400"
    dry_mass_kg := .nan
    power_watts := .str "1,000"
    launch_date := .str "11/20/1998"
    expected_lifetime_years := .str "15"
    contractor := .str "Builder"
    contractor_country := .str "USA"
    launch_site := .str "Old Site"
    launch_vehicle := .str "Rocket"
    international_designator := .str "1990-001A"
    norad_number := .npInt 1
    comments := .str "a comment"
    detailed_comments := .nan
    source_1 := .str "src"
    source_2 := .nan
    source_3 := .nan
    source_4 := .nan
    source_5 := .nan
    source_6 := .nan
    source_7 := .nan }

/-- A TrackingCatalog row with catalog number 500 and name SAT-A. -/
def scA : SatcatRow :=
  { intl_desg := .str "1998-067A"
    norad_num := .int 500
    multiple_name_flag := .int 0
    payload_flag := .int 1
    ops_status_code := .str "+"
    name := .str "SAT-A"
    source := .str "CIS"
    launch_date := .str "1998-11-20"
    launch_site := .str "TYMSC"
    decay_date := .none
    orbit_period_minutes := .float "92.9"
    inclination_deg := .float "51.6"
    apogee := .int 423
    perigee := .int 408
    radar_crosssec := .float "399.05"
    orbit_status_code := .none }

/-- A TrackingCatalog row with catalog number 600 and name SAT-B. -/
def scB : SatcatRow :=
  { scA with
    intl_desg := .str "1999-025B"
    norad_num := .int 600
    name := .str "SAT-B"
    launch_date := .str "1999-05-10"
    launch_site := .str "AFETR"
    apogee := .int 700
    perigee := .int 690 }

/-- Registry row whose catalog number is 0. -/
def regN0 : SatdbRow := { regBase with norad_number := PyVal.npInt 0 }

/-- A draw stream on which `random.randint(1, 101) < 3` never fires. -/
def noCorrupt : Nat → Nat := fun _ => 100

example :
    (fix_discrepencies [regBase] [scA, scB] noCorrupt).1.map (fun r => r.name) =
      [PyVal.str "SAT-B"] := by decide
example : (fix_discrepencies [regBase] [scA] noCorrupt).2 = [PyVal.int 1] := by decide
example : parse_celestrak_row "" = Option.none := by decide

/-! Helper lemmas about stripping, the numeric parsers and the digest
shape, used by the claim theorems below. -/

theorem mk_data (s : String) : String.mk s.data = s := rfl

theorem dropWhile_eq_self_of (p : Char → Bool) (l : List Char)
    (h : ∀ c ∈ l, p c = false) : l.dropWhile p = l := by
  cases l with
  | nil => rfl
  | cons a r =>
    exact List.dropWhile_cons_of_neg (by simp [h a (List.mem_cons_self a r)])

theorem stripChars_eq_self (l : List Char) (h : ∀ c ∈ l, isPySpace c = false) :
    stripChars l = l := by
  unfold stripChars
  rw [dropWhile_eq_self_of _ _ h, dropWhile_eq_self_of, List.reverse_reverse]
  intro c hc
  exact h c (List.mem_reverse.mp hc)

theorem pyStrip_eq_self (s : String) (h : ∀ c ∈ s.data, isPySpace c = false) :
    pyStrip s = s := by
  unfold pyStrip
  rw [stripChars_eq_self _ h]

theorem isDigitCh_bounds {c : Char} (h : isDigitCh c = true) :
    48 ≤ c.toNat ∧ c.toNat ≤ 57 := by
  simpa [isDigitCh] using h

theorem isPySpace_eq_false_of_toNat {c : Char} (h : 33 ≤ c.toNat) :
    isPySpace c = false := by
  simp only [isPySpace, Bool.or_eq_false_iff, beq_eq_false_iff_ne]
  refine ⟨⟨⟨⟨⟨?_, ?_⟩, ?_⟩, ?_⟩, ?_⟩, ?_⟩ <;>
    (rintro rfl; exact absurd h (by decide))

theorem isDigitCh_not_space {c : Char} (h : isDigitCh c = true) :
    isPySpace c = false := by
  have hb := isDigitCh_bounds h
  exact isPySpace_eq_false_of_toNat (by omega)

theorem pySign_eq_of_head {c : Char} (r : List Char) (h1 : c ≠ '+') (h2 : c ≠ '-') :
    pySign (c :: r) = (false, c :: r) := by
  show (if c = '+' then ((false : Bool), r)
    else if c = '-' then (true, r) else (false, c :: r)) = (false, c :: r)
  rw [if_neg h1, if_neg h2]

theorem mem_pySign_snd {c : Char} {l : List Char} (hc : c ∈ l)
    (h1 : c ≠ '+') (h2 : c ≠ '-') : c ∈ (pySign l).2 := by
  cases l with
  | nil => cases hc
  | cons a r =>
    show c ∈ (if a = '+' then ((false : Bool), r)
      else if a = '-' then (true, r) else (false, a :: r)).2
    by_cases ha : a = '+'
    · subst ha
      rw [if_pos rfl]
      rcases List.mem_cons.mp hc with h | h
      · exact absurd h h1
      · exact h
    · by_cases hb : a = '-'
      · subst hb
        rw [if_neg ha, if_pos rfl]
        rcases List.mem_cons.mp hc with h | h
        · exact absurd h h2
        · exact h
      · rw [if_neg ha, if_neg hb]
        exact hc

theorem noDoubleUS_of_no_us : ∀ l : List Char, (∀ c ∈ l, c ≠ '_') →
    noDoubleUS l = true
  | [], _ => rfl
  | [_], _ => rfl
  | a :: b :: r, h => by
    have hr := noDoubleUS_of_no_us (b :: r) (fun c hc => h c (List.mem_cons_of_mem a hc))
    unfold noDoubleUS
    simp [hr, h a (List.mem_cons_self a (b :: r))]

theorem duGroupOk_of_digits (l : List Char) (hne : l ≠ [])
    (h : ∀ c ∈ l, isDigitCh c = true) : duGroupOk l = true := by
  have hall : l.all (fun c => isDigitCh c || c == '_') = true := by
    rw [List.all_eq_true]
    intro c hc
    simp [h c hc]
  have hh : headDigit l = true := by
    cases l with
    | nil => exact absurd rfl hne
    | cons a r => simpa [headDigit] using h a (List.mem_cons_self a r)
  have hg : lastDigit l = true := by
    cases hgl : l.getLast? with
    | none => exact absurd (List.getLast?_eq_none_iff.mp hgl) hne
    | some c =>
      simpa [lastDigit, hgl] using h c (List.mem_of_getLast?_eq_some hgl)
  have hus : noDoubleUS l = true := by
    refine noDoubleUS_of_no_us l (fun c hc heq => ?_)
    have hd := h c hc
    rw [heq] at hd
    exact absurd hd (by decide)
  simp [duGroupOk, hne, hall, hh, hg, hus]

theorem duGroupOk_of_mem_slash {l : List Char} (h : '/' ∈ l) :
    duGroupOk l = false := by
  have hall : l.all (fun c => isDigitCh c || c == '_') = false := by
    cases hb : l.all (fun c => isDigitCh c || c == '_') with
    | false => rfl
    | true =>
      rw [List.all_eq_true] at hb
      exact absurd (hb '/' h) (by decide)
  simp [duGroupOk, hall]

theorem digitsVal_of_digits (l : List Char) (h : ∀ c ∈ l, isDigitCh c = true) :
    digitsVal l = natOfDigits l := by
  unfold digitsVal natOfDigits
  have : l.filter (fun c => c != '_') = l := by
    rw [List.filter_eq_self]
    intro c hc
    have hd := h c hc
    have hb := isDigitCh_bounds hd
    simp only [bne_iff_ne, ne_eq]
    intro heq
    rw [heq] at hb
    exact absurd hb (by decide)
  rw [this]

theorem pyIntParse_of_digits (s : String) (hne : s.data ≠ [])
    (h : ∀ c ∈ s.data, isDigitCh c = true) :
    pyIntParse s = some (Int.ofNat (natOfDigits s.data)) := by
  have hstrip : stripChars s.data = s.data :=
    stripChars_eq_self _ (fun c hc => isDigitCh_not_space (h c hc))
  have hsg : pySign s.data = (false, s.data) := by
    obtain ⟨a, r, hl⟩ : ∃ a r, s.data = a :: r := by
      cases hd : s.data with
      | nil => exact absurd hd hne
      | cons a r => exact ⟨a, r, rfl⟩
    have ha := isDigitCh_bounds (h a (hl ▸ List.mem_cons_self a r))
    rw [hl]
    refine pySign_eq_of_head r ?_ ?_ <;> (rintro rfl; revert ha; decide)
  simp only [pyIntParse, hstrip, hsg,
    if_pos (duGroupOk_of_digits _ hne h)]
  simp [digitsVal_of_digits _ h]

theorem pyIntParse_of_mem_slash (s : String) (hmem : '/' ∈ s.data)
    (hns : ∀ c ∈ s.data, isPySpace c = false) : pyIntParse s = Option.none := by
  have hm : '/' ∈ (pySign s.data).2 :=
    mem_pySign_snd hmem (by decide) (by decide)
  simp only [pyIntParse, stripChars_eq_self _ hns]
  simp [duGroupOk_of_mem_slash hm]

theorem splitFirst_none_eq (p : Char → Bool) :
    ∀ l a, splitFirst p l = (a, Option.none) → a = l
  | [], a, h => by
    unfold splitFirst at h
    rw [Prod.mk.injEq] at h
    rw [← h.1]
  | c :: r, a, h => by
    unfold splitFirst at h
    by_cases hp : p c
    · rw [if_pos hp, Prod.mk.injEq] at h
      exact absurd h.2 (by simp)
    · rw [if_neg hp, Prod.mk.injEq] at h
      have hr : splitFirst p r = ((splitFirst p r).1, Option.none) := by
        rw [← h.2]
      rw [← h.1, splitFirst_none_eq p r _ hr]

theorem splitFirst_some_eq (p : Char → Bool) :
    ∀ l a b, splitFirst p l = (a, some b) →
      ∃ ch, p ch = true ∧ l = a ++ ch :: b
  | [], a, b, h => by
    unfold splitFirst at h
    rw [Prod.mk.injEq] at h
    exact absurd h.2 (by simp)
  | c :: r, a, b, h => by
    unfold splitFirst at h
    by_cases hp : p c
    · rw [if_pos hp, Prod.mk.injEq] at h
      obtain ⟨h1, h2⟩ := h
      obtain rfl : r = b := Option.some.inj h2
      rw [← h1]
      exact ⟨c, hp, rfl⟩
    · rw [if_neg hp, Prod.mk.injEq] at h
      obtain ⟨h1, h2⟩ := h
      have hr : splitFirst p r = ((splitFirst p r).1, some b) := by
        rw [← h2]
      obtain ⟨ch, hch, heq⟩ := splitFirst_some_eq p r _ b hr
      exact ⟨ch, hch, by rw [← h1, List.cons_append, ← heq]⟩

theorem mantissaOk_of_mem_slash {l : List Char} (h : '/' ∈ l) :
    mantissaOk l = false := by
  cases ho : (splitFirst (fun c => c == '.') l).2 with
  | none =>
    have hip : (splitFirst (fun c => c == '.') l).1 = l :=
      splitFirst_none_eq _ l _ (by rw [← ho])
    simp only [mantissaOk, ho, Option.elim_none]
    rw [hip]
    exact duGroupOk_of_mem_slash h
  | some fp =>
    obtain ⟨ch, hch, hl⟩ := splitFirst_some_eq _ l _ fp (by rw [← ho])
    obtain rfl : ch = '.' := by simpa using hch
    simp only [mantissaOk, ho, Option.elim_some]
    rw [hl] at h
    rcases List.mem_append.mp h with hin | hin
    · have hne : (splitFirst (fun c => c == '.') l).1 ≠ [] :=
        List.ne_nil_of_mem hin
      simp [duGroupOk_of_mem_slash hin, hne]
    · rcases List.mem_cons.mp hin with heq | hin2
      · exact absurd heq (by decide)
      · have hne : fp ≠ [] := List.ne_nil_of_mem hin2
        simp [duGroupOk_of_mem_slash hin2, hne]

theorem expoOk_of_mem_slash {l : List Char} (h : '/' ∈ l) :
    expoOk l = false := by
  unfold expoOk
  exact duGroupOk_of_mem_slash (mem_pySign_snd h (by decide) (by decide))

theorem floatBodyOk_of_mem_slash {u : List Char} (h : '/' ∈ u) :
    floatBodyOk u = false := by
  have hlow : '/' ∈ u.map Char.toLower :=
    List.mem_map.mpr ⟨'/', h, by decide⟩
  have hcond : ¬(u.map Char.toLower = "inf".data ∨
      u.map Char.toLower = "infinity".data ∨
      u.map Char.toLower = "nan".data) := by
    rintro (h1 | h1 | h1) <;> (rw [h1] at hlow; revert hlow; decide)
  cases ho : (splitFirst (fun c => c == 'e' || c == 'E') u).2 with
  | none =>
    have hm : (splitFirst (fun c => c == 'e' || c == 'E') u).1 = u :=
      splitFirst_none_eq _ u _ (by rw [← ho])
    simp only [floatBodyOk, if_neg hcond, ho, Option.elim_none]
    rw [hm]
    exact mantissaOk_of_mem_slash h
  | some e =>
    obtain ⟨ch, hch, hu⟩ := splitFirst_some_eq _ u _ e (by rw [← ho])
    simp only [floatBodyOk, if_neg hcond, ho, Option.elim_some]
    rw [hu] at h
    rcases List.mem_append.mp h with hin | hin
    · simp [mantissaOk_of_mem_slash hin]
    · rcases List.mem_cons.mp hin with heq | hin2
      · exact absurd (heq ▸ hch) (by decide)
      · simp [expoOk_of_mem_slash hin2]

theorem pyFloatOk_of_mem_slash (s : String) (hmem : '/' ∈ s.data)
    (hns : ∀ c ∈ s.data, isPySpace c = false) : pyFloatOk s = false := by
  unfold pyFloatOk
  rw [stripChars_eq_self _ hns]
  exact floatBodyOk_of_mem_slash (mem_pySign_snd hmem (by decide) (by decide))

theorem removeCommas_eq_self (s : String) (h : ∀ c ∈ s.data, c ≠ ',') :
    removeCommas s = s := by
  unfold removeCommas
  rw [List.filter_eq_self.mpr fun c hc => by simpa using h c hc]

/-- Shape hypothesis of the date-coercion claim: a nonempty string made
of digits and at least one slash. -/
def dateShaped (s : String) : Prop :=
  s.data ≠ [] ∧ '/' ∈ s.data ∧ ∀ c ∈ s.data, isDigitCh c = true ∨ c = '/'

/-- Shape hypothesis of the thousands-separator claim: a nonempty
string of digits and commas with at least one digit. -/
def digitCommaShaped (s : String) : Prop :=
  s.data ≠ [] ∧ (∀ c ∈ s.data, isDigitCh c = true ∨ c = ',') ∧
    ∃ c ∈ s.data, isDigitCh c = true

instance : DecidablePred dateShaped := fun s => by
  unfold dateShaped
  infer_instance

instance : DecidablePred digitCommaShaped := fun s => by
  unfold digitCommaShaped
  infer_instance

theorem format_str_of_dateShaped (s : String) (hs : dateShaped s) :
    format (PyVal.str s) = (tryDates s).elim (PyVal.str s) PyVal.date := by
  obtain ⟨hne, hsl, hch⟩ := hs
  have hns : ∀ c ∈ s.data, isPySpace c = false := by
    intro c hc
    rcases hch c hc with hd | hd
    · exact isDigitCh_not_space hd
    · subst hd; decide
  have hstrip : pyStrip s = s := pyStrip_eq_self s hns
  have hnc : removeCommas s = s := by
    refine removeCommas_eq_self s (fun c hc heq => ?_)
    rcases hch c hc with hd | hd
    · rw [heq] at hd; exact absurd hd (by decide)
    · rw [heq] at hd; exact absurd hd (by decide)
  have hint : pyIntParse s = Option.none := pyIntParse_of_mem_slash s hsl hns
  have hfl : pyFloatOk s = false := pyFloatOk_of_mem_slash s hsl hns
  simp only [format, hstrip, hnc, hint, hfl]
  cases htd : tryDates s with
  | some d => simp
  | none =>
    have h1 : ¬(s = "") := by
      intro heq
      rw [heq] at hne
      exact hne rfl
    have h2 : ¬(s = "N/A") := by
      intro heq
      have hNmem : 'N' ∈ s.data := by rw [heq]; decide
      rcases hch 'N' hNmem with hd | hd <;> revert hd <;> decide
    simp [h1, h2]

theorem format_str_of_digitCommaShaped (s : String) (hs : digitCommaShaped s) :
    format (PyVal.str s) =
      PyVal.int (Int.ofNat (natOfDigits (s.data.filter (fun c => c != ',')))) := by
  obtain ⟨hne, hch, d0, hd0mem, hd0⟩ := hs
  have hns : ∀ c ∈ s.data, isPySpace c = false := by
    intro c hc
    rcases hch c hc with hd | hd
    · exact isDigitCh_not_space hd
    · subst hd; decide
  have hstrip : pyStrip s = s := pyStrip_eq_self s hns
  have hfilt : ∀ c ∈ (removeCommas s).data, isDigitCh c = true := by
    intro c hc
    obtain ⟨hmem, hpred⟩ := List.mem_filter.mp hc
    rcases hch c hmem with hd | hd
    · exact hd
    · rw [hd] at hpred
      exact absurd hpred (by decide)
  have hfne : (removeCommas s).data ≠ [] := by
    have hd0' : d0 ∈ s.data.filter (fun c => c != ',') := by
      refine List.mem_filter.mpr ⟨hd0mem, ?_⟩
      have hb := isDigitCh_bounds hd0
      simp only [bne_iff_ne, ne_eq]
      intro heq
      rw [heq] at hb
      exact absurd hb (by decide)
    exact List.ne_nil_of_mem hd0'
  have hint := pyIntParse_of_digits (removeCommas s) hfne hfilt
  simp only [format, hstrip, hint]
  rfl

theorem natOfDigits_lt_100 (l : List Char) (hall : l.all isDigitCh = true)
    (hlen : l.length = 2) : natOfDigits l < 100 := by
  obtain ⟨c1, c2, rfl⟩ : ∃ c1 c2, l = [c1, c2] := by
    rcases l with _ | ⟨c1, l1⟩
    · simp at hlen
    rcases l1 with _ | ⟨c2, l2⟩
    · simp at hlen
    rcases l2 with _ | ⟨c3, l3⟩
    · exact ⟨c1, c2, rfl⟩
    · simp only [List.length_cons] at hlen
      omega
  rw [List.all_eq_true] at hall
  have h1 := isDigitCh_bounds (hall c1 (by simp))
  have h2 := isDigitCh_bounds (hall c2 (by simp))
  simp only [natOfDigits, List.foldl]
  omega

theorem strptimeMDY2_year (s : String) (d : PyDate)
    (h : strptimeMDY2 s = some d) :
    (d.y % 100 ≤ 68 → d.y = 2000 + d.y % 100) ∧
    (68 < d.y % 100 → d.y = 1900 + d.y % 100) := by
  unfold strptimeMDY2 at h
  split at h
  · rename_i a b c heq
    split at h
    · rename_i hcond
      split at h
      · rename_i hdok
        obtain rfl : (⟨resolveY2 (natOfDigits c), natOfDigits a, natOfDigits b⟩ :
            PyDate) = d := Option.some.inj h
        have hy2 : y2CompOk c = true := by
          simp only [Bool.and_eq_true] at hcond
          exact hcond.2
        have hcb : natOfDigits c < 100 := by
          simp only [y2CompOk, Bool.and_eq_true, decide_eq_true_eq] at hy2
          exact natOfDigits_lt_100 c hy2.1 hy2.2
        simp only [resolveY2]
        split <;> constructor <;> intro <;> omega
      · exact Option.noConfusion h
    · exact Option.noConfusion h
  · exact Option.noConfusion h

theorem byteHex_length (b : Nat) : (byteHex b).length = 2 := rfl

theorem flatten_map_byteHex_length (l : List Nat) :
    ((l.map byteHex).flatten).length = 2 * l.length := by
  induction l with
  | nil => rfl
  | cons a r ih =>
    simp only [List.map_cons, List.flatten_cons, List.length_append,
      byteHex_length, ih, List.length_cons]
    omega

theorem md5Digest_length (s : String) : (md5Digest s).length = 16 := by
  unfold md5Digest
  simp [le4]

theorem fingerprint_line_length (s : String) :
    (fingerprint_line s).length = 32 := by
  show ((md5Digest s).map byteHex).flatten.length = 32
  rw [flatten_map_byteHex_length, md5Digest_length]

/-! The claim theorems. -/

/-- A line of 20 identical characters: offset 19 exists, offset 20 is
past the end. -/
def line20 : String := String.mk (List.replicate 20 'A')

/-- A line of 21 characters: offsets through 20 exist, offset 21 is
past the end. -/
def line21 : String := String.mk (List.replicate 21 'A')

/-- A line of 22 characters, the shortest the parser accepts. -/
def line22 : String := String.mk (List.replicate 22 'A')

/-- Claim C1: the claim says every Registry row is matched against the
TrackingCatalog row with the SAME catalog number. The code disagrees:
`df.set_index("norad_num")` at line 97 is not assigned, so the lookup
at line 107 runs on the positional RangeIndex. With Registry catalog
number 1 and a catalog holding only numbers 500 and 600, the row at
POSITION 1 (catalog number 600, name SAT-B) supplies the override
values even though no catalog row carries number 1. -/
theorem c1_lookup_is_positional :
    ((fix_discrepencies [regBase] [scA, scB] noCorrupt).1.map
        (fun r => r.name) = [PyVal.str "SAT-B"]) ∧
    ([scA, scB].any (fun r => r.norad_num == format regBase.norad_number)
      = false) := by decide

/-- Claim C2: the claim says the eight override fields always receive
the matched catalog row's values. The code disagrees: at lines 117-120
a `random.randint(1, 101)` draw below 3 replaces the name with the
placeholder BLAH BLAH BLAH; with draw 1 the reconciled name differs
from the catalog name SAT-A. -/
theorem c2_override_replaced_by_placeholder :
    ((fix_discrepencies [regN0] [scA] (fun _ => 1)).1.map
        (fun r => r.name) = [PyVal.str "BLAH BLAH BLAH"]) ∧
    scA.name = PyVal.str "SAT-A" := by decide

/-- Claim C3: the claim says a Registry row whose catalog number is
absent from TrackingCatalog stays untouched and one diagnostic is
emitted. The code disagrees: catalog number 1 is absent from a
two-row catalog with numbers 500 and 600, yet the positional lookup
succeeds, the row is overwritten and no diagnostic is emitted. -/
theorem c3_absent_key_still_overwritten :
    (((fix_discrepencies [regBase] [scA, scB] noCorrupt).1 == [regBase]) = false) ∧
    ((fix_discrepencies [regBase] [scA, scB] noCorrupt).2 = []) ∧
    ([scA, scB].any (fun r => r.norad_num == format regBase.norad_number)
      = false) := by decide

/-- Claim C4: the claim says reconciliation is a deterministic function
of the two datasets and never writes a placeholder name. The code
disagrees: on identical Registry and TrackingCatalog inputs, RNG draw 2
and RNG draw 50 produce different outputs, and draw 2 writes the
placeholder name. -/
theorem c4_reconciler_nondeterministic :
    (((fix_discrepencies [regN0] [scA] (fun _ => 2)).1 ==
      (fix_discrepencies [regN0] [scA] (fun _ => 50)).1) = false) ∧
    ((fix_discrepencies [regN0] [scA] (fun _ => 50)).1.map
        (fun r => r.name) = [PyVal.str "SAT-A"]) ∧
    ((fix_discrepencies [regN0] [scA] (fun _ => 2)).1.map
        (fun r => r.name) = [PyVal.str "BLAH BLAH BLAH"]) := by decide

/-- Claim C5: the claim says a line with a character at offset 19 and
an empty slice at offset 20 yields flags 1 and 0. The code disagrees:
offsets 19 and 20 are read by single-character indexing, so on a
20-character line (character present at 19, slice `[20:21]` empty) the
parser raises IndexError instead of returning any tuple. -/
theorem c5_flag_offsets_indexed_not_sliced :
    line20.data.get? 19 = some 'A' ∧
    pySlice line20 20 21 = "" ∧
    parse_celestrak_row line20 = Option.none := by decide

/-- Claim C6: the claim says every line, however short, parses to a
16-field tuple with empty strings for out-of-range fields. The code
disagrees: the single-character indexing at offsets 19, 20 and 21
raises IndexError on every line shorter than 22 characters; 22
characters and beyond always succeed. -/
theorem c6_short_lines_raise :
    parse_celestrak_row "" = Option.none ∧
    parse_celestrak_row line21 = Option.none ∧
    (parse_celestrak_row line22).isSome = true := by decide

/-- Claim C7, counterexample: two rows that differ in their first field
but share the concatenation of their string forms have the SAME
fingerprint, so a field difference does not guarantee a fingerprint
difference. -/
theorem c7_fingerprint_counterexample :
    (([PyVal.str "ab", PyVal.str "c"] : List PyVal) ==
      [PyVal.str "a", PyVal.str "bc"]) = false ∧
    fingerprintRow [PyVal.str "ab", PyVal.str "c"] =
      fingerprintRow [PyVal.str "a", PyVal.str "bc"] :=
  ⟨by decide, by rfl⟩

/-- Claim C7, amended: the fingerprint is deterministic, always 32 hex
characters long (a fixed-length digest), and renders null as the text
None; but rows differing in a field can collide when their field
concatenations coincide. -/
theorem c7_fingerprint_amended :
    (∀ r1 r2 : List PyVal, r1 = r2 → fingerprintRow r1 = fingerprintRow r2) ∧
    (∀ row : List PyVal, (fingerprintRow row).length = 32) ∧
    pyStr PyVal.none = "None" :=
  ⟨fun r1 r2 h => by rw [h], fun row => fingerprint_line_length _, rfl⟩

/-- Witness for the amended C7 theorem at a concrete row. -/
theorem c7_fingerprint_witness :
    fingerprintRow [PyVal.none, PyVal.int 3] =
      fingerprintRow [PyVal.none, PyVal.int 3] ∧
    (fingerprintRow [PyVal.none, PyVal.int 3]).length = 32 :=
  ⟨c7_fingerprint_amended.1 _ _ rfl, c7_fingerprint_amended.2.1 _⟩

/-- Claim C8: the value coercer maps N/A and the empty string to null,
a whitespace-padded 42 to the integer 42, and every nonempty string of
digits and thousands-separator commas to the integer of its digits;
the integer parse runs before float, date, sentinel and string
fallback. -/
theorem c8_value_coercer :
    format (PyVal.str "N/A") = PyVal.none ∧
    format (PyVal.str "") = PyVal.none ∧
    format (PyVal.str "  42  ") = PyVal.int 42 ∧
    format (PyVal.str "1,234") = PyVal.int 1234 ∧
    ∀ s : String, digitCommaShaped s →
      format (PyVal.str s) =
        PyVal.int (Int.ofNat (natOfDigits (s.data.filter (fun c => c != ',')))) :=
  ⟨by decide, by decide, by decide, by decide, format_str_of_digitCommaShaped⟩

/-- Witness for the C8 theorem at a concrete separator-bearing input. -/
theorem c8_value_coercer_witness :
    format (PyVal.str "12,345") = PyVal.int 12345 := by
  have h := c8_value_coercer.2.2.2.2 "12,345" (by decide)
  exact h.trans (by decide)

/-- Claim C9: strings matching MM/DD/YYYY or YYYY/MM/DD or MM/DD/YY
coerce to the literal calendar date they encode, patterns tried in
source order with the first full match winning; every slash-and-digit
string that matches no pattern (such as the malformed 02/30/99) comes
back as the unchanged string; in general, on every digit-and-slash
string the coercer returns exactly what the three-pattern date parse
yields, the string itself on failure. -/
theorem c9_date_patterns :
    format (PyVal.str "01/02/2003") = PyVal.date ⟨2003, 1, 2⟩ ∧
    format (PyVal.str "2003/01/02") = PyVal.date ⟨2003, 1, 2⟩ ∧
    format (PyVal.str "01/02/03") = PyVal.date ⟨2003, 1, 2⟩ ∧
    format (PyVal.str "02/30/99") = PyVal.str "02/30/99" ∧
    ∀ s : String, dateShaped s →
      format (PyVal.str s) = (tryDates s).elim (PyVal.str s) PyVal.date :=
  ⟨by decide, by decide, by decide, by decide, format_str_of_dateShaped⟩

/-- Witness for the C9 theorem at a concrete malformed date. -/
theorem c9_date_patterns_witness :
    format (PyVal.str "04/31/99") = PyVal.str "04/31/99" := by
  have h := c9_date_patterns.2.2.2.2 "04/31/99" (by decide)
  exact h.trans (by decide)

/-- Claim C10: the two-digit year directive resolves its century by the
CPython pivot: years 00 through 68 land in 2000-2068 and 69 through 99
in 1969-1999; in particular 12/31/99 parses to 1999-12-31 and 01/01/50
to 2050-01-01. -/
theorem c10_century_pivot :
    format (PyVal.str "12/31/99") = PyVal.date ⟨1999, 12, 31⟩ ∧
    format (PyVal.str "01/01/50") = PyVal.date ⟨2050, 1, 1⟩ ∧
    ∀ s d, strptimeMDY2 s = some d →
      (d.y % 100 ≤ 68 → d.y = 2000 + d.y % 100) ∧
      (68 < d.y % 100 → d.y = 1900 + d.y % 100) :=
  ⟨by decide, by decide, strptimeMDY2_year⟩

/-- Witness for the C10 theorem at a concrete two-digit-year date. -/
theorem c10_century_pivot_witness :
    strptimeMDY2 "06/15/99" = some ⟨1999, 6, 15⟩ ∧
    ((PyDate.mk 1999 6 15).y % 100 ≤ 68 →
      (PyDate.mk 1999 6 15).y = 2000 + (PyDate.mk 1999 6 15).y % 100) ∧
    (68 < (PyDate.mk 1999 6 15).y % 100 →
      (PyDate.mk 1999 6 15).y = 1900 + (PyDate.mk 1999 6 15).y % 100) :=
  ⟨by decide,
    (c10_century_pivot.2.2 "06/15/99" ⟨1999, 6, 15⟩ (by decide)).1,
    (c10_century_pivot.2.2 "06/15/99" ⟨1999, 6, 15⟩ (by decide)).2⟩

end SatcatUCS
